import Mathlib

/-!
# Verification of the quantum orbital sampling and scene-composition engine

Shallow embedding of the core logic of the atomic model viewer
(electron configuration, orbital samplers, heatmap color mapper,
bond geometry, scene rebuild and the per-frame animation step),
together with theorems settling the specification claims about it.

Numbers of the source are embedded as `ℤ`/`ℕ` where the source only
ever holds integers, and as `ℝ` where the source computes with
fractional values (`Math.exp`, `Math.sin`, `Math.random`, ...).
Randomness is embedded as an explicit stream `rand : ℕ → ℝ` together
with a cursor that every draw advances, so every theorem quantifies
over all outcomes of the random draws.
-/

set_option maxHeartbeats 1000000

namespace Trap

/-! ## Element data (`ELEMENT_LIST`, `ELEMENTS` lookup) -/

/-- One catalog element: atomic number, symbol, name, neutron count. -/
structure Element where
  z : ℤ
  symbol : String
  name : String
  neutrons : ℤ
deriving DecidableEq, Repr

/-- The loaded element catalog, Z = 1..36, exactly as in the source. -/
def ELEMENT_LIST : List Element := [
  ⟨1, "H", "Hydrogen", 0⟩,
  ⟨2, "He", "Helium", 2⟩,
  ⟨3, "Li", "Lithium", 4⟩,
  ⟨4, "Be", "Beryllium", 5⟩,
  ⟨5, "B", "Boron", 6⟩,
  ⟨6, "C", "Carbon", 6⟩,
  ⟨7, "N", "Nitrogen", 7⟩,
  ⟨8, "O", "Oxygen", 8⟩,
  ⟨9, "F", "Fluorine", 10⟩,
  ⟨10, "Ne", "Neon", 10⟩,
  ⟨11, "Na", "Sodium", 12⟩,
  ⟨12, "Mg", "Magnesium", 12⟩,
  ⟨13, "Al", "Aluminum", 14⟩,
  ⟨14, "Si", "Silicon", 14⟩,
  ⟨15, "P", "Phosphorus", 16⟩,
  ⟨16, "S", "Sulfur", 16⟩,
  ⟨17, "Cl", "Chlorine", 18⟩,
  ⟨18, "Ar", "Argon", 22⟩,
  ⟨19, "K", "Potassium", 20⟩,
  ⟨20, "Ca", "Calcium", 20⟩,
  ⟨21, "Sc", "Scandium", 24⟩,
  ⟨22, "Ti", "Titanium", 26⟩,
  ⟨23, "V", "Vanadium", 28⟩,
  ⟨24, "Cr", "Chromium", 28⟩,
  ⟨25, "Mn", "Manganese", 30⟩,
  ⟨26, "Fe", "Iron", 30⟩,
  ⟨27, "Co", "Cobalt", 32⟩,
  ⟨28, "Ni", "Nickel", 31⟩,
  ⟨29, "Cu", "Copper", 35⟩,
  ⟨30, "Zn", "Zinc", 35⟩,
  ⟨31, "Ga", "Gallium", 39⟩,
  ⟨32, "Ge", "Germanium", 41⟩,
  ⟨33, "As", "Arsenic", 42⟩,
  ⟨34, "Se", "Selenium", 45⟩,
  ⟨35, "Br", "Bromine", 45⟩,
  ⟨36, "Kr", "Krypton", 48⟩]

/-- Lookup by atomic number, embedding the `ELEMENTS[z]` dictionary access
(the dictionary is keyed by the unique `z` of each list entry, so a
first-match search over the list is the same map). A `none` result is the
JS `undefined`. -/
def findElement (z : ℤ) : Option Element :=
  ELEMENT_LIST.find? (fun el => el.z = z)

/-! ## Aufbau filling order and electron configuration -/

/-- One subshell of `AUFBAU_ORDER` after the `.map` that attaches
`maxElectrons = 2(2l+1)` (the string label is not needed by any claim). -/
structure Subshell where
  n : ℕ
  l : ℕ
  maxElectrons : ℤ
deriving DecidableEq, Repr

/-- The raw `{n, l}` pairs of `AUFBAU_ORDER` in source order. -/
def AUFBAU_RAW : List (ℕ × ℕ) :=
  [(1,0),(2,0),(2,1),(3,0),(3,1),(4,0),(3,2),(4,1),(5,0),(4,2),
   (5,1),(6,0),(4,3),(5,2),(6,1),(7,0),(5,3),(6,2),(7,1)]

/-- `AUFBAU_ORDER` with the computed capacity `2 * (2 * l + 1)`. -/
def AUFBAU_ORDER : List Subshell :=
  AUFBAU_RAW.map (fun s => ⟨s.1, s.2, 2 * (2 * (s.2 : ℤ) + 1)⟩)

/-- A subshell together with the electrons assigned to it by the
configuration builder. -/
structure ConfigEntry where
  n : ℕ
  l : ℕ
  maxElectrons : ℤ
  electrons : ℤ
deriving DecidableEq, Repr

/-- The loop body of `getElectronConfiguration`: walk the subshell list,
break once `remaining <= 0`, otherwise take `min(remaining, maxElectrons)`
into the subshell and continue with the rest. -/
def configLoop : List Subshell → ℤ → List ConfigEntry
  | [], _ => []
  | sub :: rest, remaining =>
    if remaining ≤ 0 then []
    else
      let e := min remaining sub.maxElectrons
      ⟨sub.n, sub.l, sub.maxElectrons, e⟩ :: configLoop rest (remaining - e)

/-- `getElectronConfiguration(Z)` of the source. -/
def getElectronConfiguration (Z : ℤ) : List ConfigEntry :=
  configLoop AUFBAU_ORDER Z

/-- Total of the electrons assigned over a configuration. -/
def sumElectrons (config : List ConfigEntry) : ℤ :=
  (config.map (fun c => c.electrons)).sum

/-! ## Electron-to-orbital distribution (shared loop of `rebuildAtom` and
`rebuildMolecule`) -/

/-- The list of magnetic quantum numbers `-l, ..., +l` a subshell loop
iterates over (`for (let ml = -sub.l; ml <= sub.l; ml++)`). -/
def mlList (l : ℕ) : List ℤ :=
  (List.range (2 * l + 1)).map (fun (i : ℕ) => (i : ℤ) - (l : ℤ))

/-- The per-orbital assignment loop: for each orbital in turn take
`eInThis = min(electronsLeft, 2)`, break once that is `<= 0`. Returns the
`(ml, electrons)` pairs of the orbitals that get built. -/
def distLoop : List ℤ → ℤ → List (ℤ × ℤ)
  | [], _ => []
  | ml :: rest, left =>
    let e := min left 2
    if e ≤ 0 then []
    else (ml, e) :: distLoop rest (left - e)

/-- Distribution of a subshell total over its orbitals, exactly the loop
both rebuild paths run for a subshell of angular quantum number `l`. -/
def distributeElectrons (l : ℕ) (electrons : ℤ) : List (ℤ × ℤ) :=
  distLoop (mlList l) electrons

/-! ## Scene rebuild models (`rebuildAtom`, `rebuildMolecule`) -/

/-- One orbital cloud the assembler builds: quantum numbers plus the
electron count it carries. -/
structure CloudSpec where
  n : ℕ
  l : ℕ
  ml : ℤ
  electrons : ℤ
deriving DecidableEq, Repr

/-- All orbital clouds built for one atom of atomic number `Z`: each
configured subshell is expanded by the shared distribution loop. Both
branches of `rebuildAtom` (individual or combined display) and the atom
loop of `rebuildMolecule` run this same expansion. -/
def atomClouds (Z : ℤ) : List CloudSpec :=
  (getElectronConfiguration Z).flatMap (fun sub =>
    (distributeElectrons sub.l sub.electrons).map (fun p =>
      ⟨sub.n, sub.l, p.1, p.2⟩))

/-- The data a single-atom rebuild derives for the scene: the nucleus
parameters and the orbital clouds. -/
structure AtomScene where
  nucleusProtons : ℤ
  nucleusNeutrons : ℤ
  clouds : List CloudSpec
deriving DecidableEq, Repr

/-- Model of `rebuildAtom`: it looks `state.elementZ` up in `ELEMENTS`
without a guard and immediately dereferences `element.z` /
`element.neutrons` to build the nucleus, so a missing element is a thrown
`TypeError`, embedded as `Except.error`. -/
def rebuildAtomModel (Z : ℤ) : Except String AtomScene :=
  match findElement Z with
  | none => Except.error "TypeError: cannot read properties of undefined"
  | some el => Except.ok ⟨el.z, el.neutrons, atomClouds Z⟩

/-- Model of one iteration of the atom loop of `rebuildMolecule`: the
lookup is guarded by `if (!element) return;`, so a missing element skips
the atom (`none`) instead of failing. -/
def buildMoleculeAtom (z : ℤ) : Option AtomScene :=
  (findElement z).map (fun el => ⟨el.z, el.neutrons, atomClouds z⟩)

/-! ## Heatmap color mapper (`densityToHeatmap`) -/

noncomputable section

/-- The clamp `t = Math.max(0, Math.min(1, t))` applied on entry. -/
def clamp01 (t : ℝ) : ℝ := max 0 (min 1 t)

/-- The 4-segment piecewise-linear ramp of `densityToHeatmap`, applied to
the already-clamped value; returns the `(r, g, b)` components. -/
def heatRamp (t : ℝ) : ℝ × ℝ × ℝ :=
  if t < 0.25 then
    let s := t / 0.25
    (0.15 + s * 0.55, 0.0 + s * 0.0, 0.3 + s * 0.4)
  else if t < 0.5 then
    let s := (t - 0.25) / 0.25
    (0.7 + s * 0.3, 0.0 + s * 0.45, 0.7 - s * 0.6)
  else if t < 0.75 then
    let s := (t - 0.5) / 0.25
    (1.0, 0.45 + s * 0.45, 0.1 - s * 0.05)
  else
    let s := (t - 0.75) / 0.25
    (1.0, 0.9 + s * 0.1, 0.05 + s * 0.95)

/-- `densityToHeatmap(t)`: clamp, then the 4-segment ramp. -/
def densityToHeatmap (t : ℝ) : ℝ × ℝ × ℝ := heatRamp (clamp01 t)

/-! ## 3D vectors and the bond cylinder offsets (`buildBondCylinder`) -/

/-- A 3D vector with real components. -/
structure Vec3 where
  x : ℝ
  y : ℝ
  z : ℝ

namespace Vec3

/-- Componentwise difference, `subVectors(b, a) = b - a`. -/
def sub (a b : Vec3) : Vec3 := ⟨a.x - b.x, a.y - b.y, a.z - b.z⟩

/-- Dot product. -/
def dot (a b : Vec3) : ℝ := a.x * b.x + a.y * b.y + a.z * b.z

/-- Cross product. -/
def cross (a b : Vec3) : Vec3 :=
  ⟨a.y * b.z - a.z * b.y, a.z * b.x - a.x * b.z, a.x * b.y - a.y * b.x⟩

/-- Euclidean length. -/
def length (a : Vec3) : ℝ := Real.sqrt (a.x ^ 2 + a.y ^ 2 + a.z ^ 2)

/-- Scalar multiple (`multiplyScalar`). -/
def smul (c : ℝ) (a : Vec3) : Vec3 := ⟨c * a.x, c * a.y, c * a.z⟩

/-- Negation (`negate`). -/
def neg (a : Vec3) : Vec3 := ⟨-a.x, -a.y, -a.z⟩

/-- Normalization: divide every component by the length. (The rendering
library substitutes length 1 for a zero length; with Lean's `x / 0 = 0`
the zero vector maps to itself either way, so both conventions agree.) -/
def normalize (a : Vec3) : Vec3 := ⟨a.x / a.length, a.y / a.length, a.z / a.length⟩

/-- The zero vector. -/
def zero : Vec3 := ⟨0, 0, 0⟩

end Vec3

/-- The multi-bond offset list computed by `buildBondCylinder`: one zero
offset for a single bond; a symmetric pair for a double bond; a zero
offset plus a symmetric pair for a triple bond. The perpendicular
reference starts as `(0,1,0)` and switches to `(1,0,0)` when the bond
direction is near-parallel to it. -/
def bondOffsets (posA posB : Vec3) (order : ℤ) : List Vec3 :=
  let dir := Vec3.sub posB posA
  let length := dir.length
  if order = 1 then
    [Vec3.zero]
  else if order = 2 then
    let perp : Vec3 := if |dir.dot ⟨0, 1, 0⟩| / length > 0.9 then ⟨1, 0, 0⟩ else ⟨0, 1, 0⟩
    let offset := Vec3.smul 0.15 (dir.cross perp).normalize
    [offset, offset.neg]
  else if order = 3 then
    let perp : Vec3 := if |dir.dot ⟨0, 1, 0⟩| / length > 0.9 then ⟨1, 0, 0⟩ else ⟨0, 1, 0⟩
    let offset := Vec3.smul 0.2 (dir.cross perp).normalize
    [Vec3.zero, offset, offset.neg]
  else []

/-! ## Animation step (`animate`, orbital cloud breathing and jitter) -/

/-- The per-cloud phase `elapsed * speed * 0.8 + n * 1.3 + l * 0.7`. -/
def animatePhase (n l : ℕ) (speed elapsed : ℝ) : ℝ :=
  elapsed * speed * 0.8 + (n : ℝ) * 1.3 + (l : ℝ) * 0.7

/-- The per-component jitter. The loop walks the buffer in triples
starting at `i = 3 * (j / 3)` and keys the three sinusoids of a triple by
that base index, so the jitter is a function of the elapsed time and the
buffer index alone (scaled by `jitterScale = 0.03 * speed`). -/
def animateJitter (speed elapsed : ℝ) (j : ℕ) : ℝ :=
  let i : ℝ := (3 * (j / 3) : ℕ)
  let jitterScale := 0.03 * speed
  if j % 3 = 0 then Real.sin (elapsed * 2.3 + i) * jitterScale
  else if j % 3 = 1 then Real.cos (elapsed * 1.7 + i) * jitterScale
  else Real.sin (elapsed * 3.1 + i + 1) * jitterScale

/-- One animation frame for one cloud: every buffer component is
rewritten as `base * breathe + jitter` where
`breathe = 1.0 + Math.sin(phase) * 0.04`. The previous buffer contents
`prev` are never read (the source assigns `positions[i] = base[i] * ...`),
which is what makes the update drift-free. -/
def animatePositions (n l : ℕ) (speed elapsed : ℝ) (prev base : ℕ → ℝ) : ℕ → ℝ :=
  fun j =>
    let _ := prev
    base j * (1.0 + Real.sin (animatePhase n l speed elapsed) * 0.04) +
      animateJitter speed elapsed j

/-! ## Radial sampler (`laguerreL`, `radialProbability`, `sampleRadius`) -/

/-- `radialScale(n) = 2.5 + (n - 1) * 2.0`. -/
def radialScale (n : ℕ) : ℝ := 2.5 + ((n : ℝ) - 1) * 2.0

/-- Generalized Laguerre polynomial by the three-term recurrence the
source iterates: `L_0 = 1`, `L_1 = 1 + k - x`,
`i * L_i = (2i - 1 + k - x) * L_(i-1) - (i - 1 + k) * L_(i-2)`. -/
def laguerreL : ℕ → ℝ → ℝ → ℝ
  | 0, _, _ => 1
  | 1, k, x => 1 + k - x
  | p + 2, k, x =>
    ((2 * ((p : ℝ) + 2) - 1 + k - x) * laguerreL (p + 1) k x -
      (((p : ℝ) + 2) - 1 + k) * laguerreL p k x) / ((p : ℝ) + 2)

/-- `radialProbability(n, l, rho) = rho^2 * Rnl^2` with
`Rnl = rho^l * L * exp(-rho / 2)`, `L` of degree `n - l - 1` and order
`2l + 1`. -/
def radialProbability (n l : ℕ) (rho : ℝ) : ℝ :=
  let lagP := n - l - 1
  let lagK : ℝ := 2 * (l : ℝ) + 1
  let L := laguerreL lagP lagK rho
  let Rnl := rho ^ l * L * Real.exp (-rho / 2)
  rho * rho * Rnl * Rnl

/-- The radial truncation `rhoMax = 3 * n + 4`. -/
def rhoMax (n : ℕ) : ℝ := 3 * (n : ℝ) + 4

/-- The grid estimate of the maximum of the radial probability: the
maximum over the 201 grid points `(i / 200) * rhoMax`, `i = 0..200`,
folded from `0`, then scaled by the 5% safety margin. -/
def probMax (n l : ℕ) : ℝ :=
  (((List.range 201).map
      (fun (i : ℕ) => radialProbability n l (((i : ℝ) / 200) * rhoMax n))).foldl max 0) * 1.05

/-- One record returned by `sampleRadius`. -/
structure RSample where
  r : ℝ
  radialDensity : ℝ

/-- The bounded rejection loop of `sampleRadius`: each attempt draws a
candidate `rho` and an acceptance uniform (two stream draws), accepts when
`u * probMax < prob`, and gives up after the fuel (500 attempts) runs out.
Returns the accepted sample (if any) and the advanced stream cursor. -/
def sampleRadiusGo (n l : ℕ) (rand : ℕ → ℝ) : ℕ → ℕ → Option RSample × ℕ
  | 0, k => (none, k)
  | fuel + 1, k =>
    let rho := rand k * rhoMax n
    let prob := radialProbability n l rho
    if rand (k + 1) * probMax n l < prob then
      (some ⟨rho * radialScale n / (2 * (n : ℝ)), prob / probMax n l⟩, k + 2)
    else sampleRadiusGo n l rand fuel (k + 2)

/-- `sampleRadius(n, l)`: up to 500 rejection attempts; on exhaustion the
fixed fallback `{ r: R * 0.5, radialDensity: 0.3 }`. -/
def sampleRadius (n l : ℕ) (rand : ℕ → ℝ) (k : ℕ) : RSample × ℕ :=
  match sampleRadiusGo n l rand 500 k with
  | (some s, k1) => (s, k1)
  | (none, k1) => (⟨radialScale n * 0.5, 0.3⟩, k1)

/-! ## Angular samplers and the master sampler (`sampleSOrbital`,
`samplePOrbital`, `sampleDOrbital`, `sampleFOrbital`,
`sampleOrbitalPositions`) -/

/-- One orbital sample: a position and its unnormalized density. -/
structure OSample where
  pos : Vec3
  density : ℝ

/-- A uniform direction on the unit sphere from two stream draws:
`theta = u * 2π`, `cosP = 2u - 1`, `sinP = sqrt(1 - cosP^2)`,
direction `(sinP cos theta, cosP, sinP sin theta)`. -/
def sphereDir (u v : ℝ) : Vec3 :=
  let theta := u * (2 * Real.pi)
  let cosP := 2 * v - 1
  let sinP := Real.sqrt (1 - cosP * cosP)
  ⟨sinP * Real.cos theta, cosP, sinP * Real.sin theta⟩

/-- `sampleSOrbital(n)`: radial draw, then a uniform direction (two more
draws); density is the radial density alone. -/
def sampleSOrbital (n : ℕ) (rand : ℕ → ℝ) (k : ℕ) : OSample × ℕ :=
  let rk := sampleRadius n 0 rand k
  let d := sphereDir (rand rk.2) (rand (rk.2 + 1))
  (⟨⟨rk.1.r * d.x, rk.1.r * d.y, rk.1.r * d.z⟩, rk.1.radialDensity⟩, rk.2 + 2)

/-- The p-orbital angular weight for a unit direction:
`y^2` for `ml = 0`, `x^2` for `ml = 1`, `z^2` otherwise. -/
def pAngularVal (ml : ℤ) (d : Vec3) : ℝ :=
  if ml = 0 then d.y * d.y else if ml = 1 then d.x * d.x else d.z * d.z

/-- The angular rejection loop of `samplePOrbital`: each attempt draws a
direction (two draws) and an acceptance uniform (one draw), accepting with
probability `angularVal ^ 3.5`. -/
def pAngularGo (ml : ℤ) (rand : ℕ → ℝ) : ℕ → ℕ → Option (Vec3 × ℝ) × ℕ
  | 0, k => (none, k)
  | fuel + 1, k =>
    let d := sphereDir (rand k) (rand (k + 1))
    let angularVal := pAngularVal ml d
    if rand (k + 2) < angularVal ^ (3.5 : ℝ) then (some (d, angularVal), k + 3)
    else pAngularGo ml rand fuel (k + 3)

/-- `samplePOrbital(n, ml)`: radial draw, the 500-attempt angular loop,
and on exhaustion the deterministic fallback along the lobe axis (a random
sign and a small `0.15` spread on the two off-axis components, then
normalized) with fixed `angularVal = 0.9`. -/
def samplePOrbital (n : ℕ) (ml : ℤ) (rand : ℕ → ℝ) (k : ℕ) : OSample × ℕ :=
  let rk := sampleRadius n 1 rand k
  let r := rk.1.r
  match pAngularGo ml rand 500 rk.2 with
  | (some da, k2) =>
    (⟨⟨da.1.x * r, da.1.y * r, da.1.z * r⟩, rk.1.radialDensity * da.2⟩, k2)
  | (none, k2) =>
    let sign : ℝ := if rand k2 < 0.5 then 1 else -1
    let a := (rand (k2 + 1) - 0.5) * 0.15
    let b := (rand (k2 + 2) - 0.5) * 0.15
    let v : Vec3 := if ml = 0 then ⟨a, sign, b⟩ else if ml = 1 then ⟨sign, a, b⟩ else ⟨a, b, sign⟩
    let len := Real.sqrt (v.x * v.x + v.y * v.y + v.z * v.z)
    (⟨⟨v.x / len * r, v.y / len * r, v.z / len * r⟩, rk.1.radialDensity * 0.9⟩, k2 + 3)

/-- The d-orbital angular weight of the source for a direction drawn with
polar angle against the y axis (`y = cosT`) and azimuth `phi`. -/
def dAngularVal (ml : ℤ) (phi cosT sinT : ℝ) : ℝ :=
  let sin2T := sinT * sinT
  let cos2T := cosT * cosT
  if ml = 0 then (3 * cos2T - 1) ^ 2 / 4
  else if ml = 1 then sin2T * cos2T * Real.cos phi * Real.cos phi * 4
  else if ml = -1 then sin2T * cos2T * Real.sin phi * Real.sin phi * 4
  else if ml = 2 then sin2T * sin2T * Real.sin (2 * phi) * Real.sin (2 * phi)
  else if ml = -2 then sin2T * sin2T * Real.cos (2 * phi) * Real.cos (2 * phi)
  else 1

/-- The angular rejection loop of `sampleDOrbital`: acceptance probability
`min(angularVal ^ 2.5, 1)`. -/
def dAngularGo (ml : ℤ) (rand : ℕ → ℝ) : ℕ → ℕ → Option (Vec3 × ℝ) × ℕ
  | 0, k => (none, k)
  | fuel + 1, k =>
    let phi := rand k * (2 * Real.pi)
    let cosT := 2 * rand (k + 1) - 1
    let sinT := Real.sqrt (1 - cosT * cosT)
    let d : Vec3 := ⟨sinT * Real.cos phi, cosT, sinT * Real.sin phi⟩
    let angularVal := dAngularVal ml phi cosT sinT
    if rand (k + 2) < min (angularVal ^ (2.5 : ℝ)) 1 then (some (d, angularVal), k + 3)
    else dAngularGo ml rand fuel (k + 3)

/-- `sampleDOrbital(n, ml)`: radial draw, the 500-attempt angular loop,
and on exhaustion a peak-density fallback direction (`(0, ±1, 0)` for
`ml = 0`, `(±0.707, 0, ±0.707)` otherwise) with fixed
`angularVal = 0.8`. -/
def sampleDOrbital (n : ℕ) (ml : ℤ) (rand : ℕ → ℝ) (k : ℕ) : OSample × ℕ :=
  let rk := sampleRadius n 2 rand k
  let r := rk.1.r
  match dAngularGo ml rand 500 rk.2 with
  | (some da, k2) =>
    (⟨⟨da.1.x * r, da.1.y * r, da.1.z * r⟩, rk.1.radialDensity * da.2⟩, k2)
  | (none, k2) =>
    let sign : ℝ := if rand k2 < 0.5 then 1 else -1
    let v : Vec3 := if ml = 0 then ⟨0, sign, 0⟩ else ⟨sign * 0.707, 0, sign * 0.707⟩
    (⟨⟨v.x * r, v.y * r, v.z * r⟩, rk.1.radialDensity * 0.8⟩, k2 + 1)

/-- The f-orbital angular weight of the source. -/
def fAngularVal (ml : ℤ) (phi cosT sinT : ℝ) : ℝ :=
  let sin2T := sinT * sinT
  let cos2T := cosT * cosT
  if ml = 0 then (cosT * (5 * cos2T - 3)) ^ 2 * 0.1
  else if ml = 1 then sin2T * (5 * cos2T - 1) ^ 2 * Real.cos phi * Real.cos phi * 0.08
  else if ml = -1 then sin2T * (5 * cos2T - 1) ^ 2 * Real.sin phi * Real.sin phi * 0.08
  else if ml = 2 then sin2T * sin2T * cos2T * Real.sin (2 * phi) * Real.sin (2 * phi) * 2
  else if ml = -2 then sin2T * sin2T * cos2T * Real.cos (2 * phi) * Real.cos (2 * phi) * 2
  else if ml = 3 then sin2T * sin2T * sin2T * Real.cos (3 * phi) * Real.cos (3 * phi)
  else if ml = -3 then sin2T * sin2T * sin2T * Real.sin (3 * phi) * Real.sin (3 * phi)
  else 0.5

/-- The angular rejection loop of `sampleFOrbital`: acceptance probability
`min(angularVal ^ 2.0, 1)`. -/
def fAngularGo (ml : ℤ) (rand : ℕ → ℝ) : ℕ → ℕ → Option (Vec3 × ℝ) × ℕ
  | 0, k => (none, k)
  | fuel + 1, k =>
    let phi := rand k * (2 * Real.pi)
    let cosT := 2 * rand (k + 1) - 1
    let sinT := Real.sqrt (1 - cosT * cosT)
    let d : Vec3 := ⟨sinT * Real.cos phi, cosT, sinT * Real.sin phi⟩
    let angularVal := fAngularVal ml phi cosT sinT
    if rand (k + 2) < min (angularVal ^ (2.0 : ℝ)) 1 then (some (d, angularVal), k + 3)
    else fAngularGo ml rand fuel (k + 3)

/-- `sampleFOrbital(n, ml)`: radial draw, the 500-attempt angular loop,
and on exhaustion the fallback along the y axis with fixed
`angularVal = 0.7`. -/
def sampleFOrbital (n : ℕ) (ml : ℤ) (rand : ℕ → ℝ) (k : ℕ) : OSample × ℕ :=
  let rk := sampleRadius n 3 rand k
  let r := rk.1.r
  match fAngularGo ml rand 500 rk.2 with
  | (some da, k2) =>
    (⟨⟨da.1.x * r, da.1.y * r, da.1.z * r⟩, rk.1.radialDensity * da.2⟩, k2)
  | (none, k2) =>
    let sign : ℝ := if rand k2 < 0.5 then 1 else -1
    (⟨⟨0, sign * r, 0⟩, rk.1.radialDensity * 0.7⟩, k2 + 1)

/-- The dispatch of the master sampler on `l` (the source `switch`, whose
default also draws an s orbital). -/
def sampleOne (n l : ℕ) (ml : ℤ) (rand : ℕ → ℝ) (k : ℕ) : OSample × ℕ :=
  match l with
  | 0 => sampleSOrbital n rand k
  | 1 => samplePOrbital n ml rand k
  | 2 => sampleDOrbital n ml rand k
  | 3 => sampleFOrbital n ml rand k
  | _ => sampleSOrbital n rand k

/-- `sampleOrbitalPositions(n, l, ml, count)`: `count` consecutive draws,
pushed in order; returns the list of samples and the final stream
cursor. -/
def sampleOrbitalPositions (n l : ℕ) (ml : ℤ) (count : ℕ) (rand : ℕ → ℝ) (k : ℕ) :
    List OSample × ℕ :=
  match count with
  | 0 => ([], k)
  | c + 1 =>
    let s := sampleOne n l ml rand k
    let rest := sampleOrbitalPositions n l ml c rand s.2
    (s.1 :: rest.1, rest.2)

end

/-! ## Helper lemmas about the configuration builder -/

/-- Unfolding the electron total over an empty configuration. -/
lemma sumElectrons_nil : sumElectrons [] = 0 := rfl

/-- Unfolding the electron total over a configuration entry. -/
lemma sumElectrons_cons (c : ConfigEntry) (cs : List ConfigEntry) :
    sumElectrons (c :: cs) = c.electrons + sumElectrons cs := by
  simp [sumElectrons]

/-- A non-positive remainder breaks the configuration loop at once. -/
lemma configLoop_nonpos (subs : List Subshell) (r : ℤ) (hr : r ≤ 0) :
    configLoop subs r = [] := by
  cases subs with
  | nil => rfl
  | cons sub rest => simp [configLoop, hr]

/-- The total assigned by the loop is the remainder capped by the total
capacity of the subshells it walks. -/
lemma sumElectrons_configLoop (subs : List Subshell) :
    ∀ r : ℤ, 0 < r → (∀ s ∈ subs, 0 < s.maxElectrons) →
      sumElectrons (configLoop subs r) =
        min r ((subs.map (fun s => s.maxElectrons)).sum) := by
  induction subs with
  | nil =>
    intro r hr _
    simp only [configLoop, List.map_nil, List.sum_nil, sumElectrons]
    omega
  | cons sub rest ih =>
    intro r hr hpos
    have hm : 0 < sub.maxElectrons := hpos sub (by simp)
    have hrest : ∀ s ∈ rest, 0 < s.maxElectrons := fun s hs => hpos s (by simp [hs])
    have hsum : 0 ≤ (rest.map (fun s => s.maxElectrons)).sum :=
      List.sum_nonneg (by
        intro x hx
        obtain ⟨s, hs, rfl⟩ := List.mem_map.mp hx
        exact le_of_lt (hrest s hs))
    simp only [configLoop, if_neg (by omega : ¬ r ≤ 0)]
    rcases le_or_lt r sub.maxElectrons with hle | hlt
    · have he : min r sub.maxElectrons = r := min_eq_left hle
      rw [he, sub_self, configLoop_nonpos rest 0 le_rfl, sumElectrons_cons, sumElectrons_nil]
      simp only [List.map_cons, List.sum_cons]
      omega
    · have he : min r sub.maxElectrons = sub.maxElectrons := min_eq_right (le_of_lt hlt)
      rw [he, sumElectrons_cons, ih (r - sub.maxElectrons) (by omega) hrest]
      simp only [List.map_cons, List.sum_cons]
      omega

/-- Every entry of the loop output is assigned at least one electron and
at most its capacity. -/
lemma configLoop_electrons_bounds (subs : List Subshell) :
    ∀ r : ℤ, (∀ s ∈ subs, 0 < s.maxElectrons) →
      ∀ c ∈ configLoop subs r, c.electrons ≤ c.maxElectrons ∧ 0 < c.electrons := by
  induction subs with
  | nil => intro r _ c hc; simp [configLoop] at hc
  | cons sub rest ih =>
    intro r hpos c hc
    simp only [configLoop] at hc
    split at hc
    · simp at hc
    · rcases List.mem_cons.mp hc with rfl | hmem
      · have hm : 0 < sub.maxElectrons := hpos sub (by simp)
        constructor
        · exact min_le_right _ _
        · simp only []
          omega
      · exact ih _ (fun s hs => hpos s (by simp [hs])) c hmem

/-- The loop output, stripped of the assigned electrons, is a prefix of
the subshell list it walked. -/
lemma configLoop_erasure_init (subs : List Subshell) :
    ∀ r : ℤ, (configLoop subs r).map (fun c => (c.n, c.l, c.maxElectrons)) <+:
      subs.map (fun s => (s.n, s.l, s.maxElectrons)) := by
  induction subs with
  | nil => intro r; simp [configLoop]
  | cons sub rest ih =>
    intro r
    simp only [configLoop]
    split
    · exact List.nil_prefix
    · simp only [List.map_cons]
      obtain ⟨t, ht⟩ := ih (r - min r sub.maxElectrons)
      exact ⟨t, by rw [List.cons_append, ht]⟩

/-- All 19 Aufbau subshells have positive capacity. -/
lemma aufbau_caps_pos : ∀ s ∈ AUFBAU_ORDER, 0 < s.maxElectrons := by decide

/-- The capacity attached to every Aufbau subshell is `2 * (2l + 1)`. -/
lemma aufbau_caps_formula :
    ∀ t : ℕ × ℕ × ℤ, t ∈ AUFBAU_ORDER.map (fun s => (s.n, s.l, s.maxElectrons)) →
      t.2.2 = 2 * (2 * (t.2.1 : ℤ) + 1) := by decide

/-- The total capacity of the 19 Aufbau subshells is 118. -/
lemma aufbau_total_capacity : (AUFBAU_ORDER.map (fun s => s.maxElectrons)).sum = 118 := by
  decide

/-! ## Helper lemmas about the orbital distribution loop -/

/-- Every orbital the distribution loop fills holds one or two
electrons. -/
lemma distLoop_counts (mls : List ℤ) :
    ∀ left : ℤ, ∀ p ∈ distLoop mls left, 1 ≤ p.2 ∧ p.2 ≤ 2 := by
  induction mls with
  | nil => intro left p hp; simp [distLoop] at hp
  | cons ml rest ih =>
    intro left p hp
    simp only [distLoop] at hp
    split at hp
    · simp at hp
    · rcases List.mem_cons.mp hp with rfl | hmem
      · simp only []
        omega
      · exact ih _ p hmem

/-- The electrons placed by the distribution loop total the remainder
capped at two per orbital walked. -/
lemma distLoop_sum (mls : List ℤ) :
    ∀ left : ℤ, 0 ≤ left →
      ((distLoop mls left).map Prod.snd).sum = min left (2 * (mls.length : ℤ)) := by
  induction mls with
  | nil =>
    intro left h
    simp only [distLoop, List.map_nil, List.sum_nil, List.length_nil]
    omega
  | cons ml rest ih =>
    intro left h
    simp only [distLoop]
    split
    · simp only [List.map_nil, List.sum_nil, List.length_cons]
      omega
    · rename_i hne
      simp only [List.map_cons, List.sum_cons]
      rw [ih (left - min left 2) (by omega)]
      simp only [List.length_cons]
      push_cast
      omega

/-- The orbitals filled by the distribution loop are an initial segment of
the orbital list. -/
lemma distLoop_fst_init (mls : List ℤ) :
    ∀ left : ℤ, (distLoop mls left).map Prod.fst <+: mls := by
  induction mls with
  | nil => intro left; simp [distLoop]
  | cons ml rest ih =>
    intro left
    simp only [distLoop]
    split
    · exact List.nil_prefix
    · simp only [List.map_cons]
      obtain ⟨t, ht⟩ := ih (left - min left 2)
      exact ⟨t, by rw [List.cons_append, ht]⟩

/-- The orbital list of a subshell has `2l + 1` entries. -/
lemma mlList_length (l : ℕ) : (mlList l).length = 2 * l + 1 := by
  rw [mlList, List.length_map, List.length_range]

/-! ## Helper lemmas about the element catalog -/

/-- Every catalog entry has atomic number between 1 and 36. -/
lemma element_list_range : ∀ el ∈ ELEMENT_LIST, 1 ≤ el.z ∧ el.z ≤ 36 := by decide

/-- A lookup outside the catalog range yields the JS `undefined`. -/
lemma findElement_eq_none (Z : ℤ) (h : Z < 1 ∨ 36 < Z) : findElement Z = none := by
  rw [findElement, List.find?_eq_none]
  intro el hel
  have := element_list_range el hel
  simp only [decide_eq_true_eq]
  omega

/-! ## Claim theorems -/

/-- Claim C1: for every atomic number Z with 1 ≤ Z ≤ 36,
`getElectronConfiguration(Z)` fills a prefix of the Aufbau order
1s,2s,2p,3s,3p,4s,3d,4p,5s,4d,5p,6s,4f,5d,6p,7s,5f,6d,7p greedily; the
assigned electrons sum to Z, every subshell receives at least one and at
most its capacity, and the capacity is `2(2l+1)`. -/
theorem getElectronConfiguration_aufbau (Z : ℤ) (h1 : 1 ≤ Z) (h2 : Z ≤ 36) :
    sumElectrons (getElectronConfiguration Z) = Z ∧
    (∀ c ∈ getElectronConfiguration Z,
      c.electrons ≤ c.maxElectrons ∧ 0 < c.electrons ∧
      c.maxElectrons = 2 * (2 * (c.l : ℤ) + 1)) ∧
    (getElectronConfiguration Z).map (fun c => (c.n, c.l)) <+:
      AUFBAU_ORDER.map (fun s => (s.n, s.l)) := by
  refine ⟨?_, ?_, ?_⟩
  · rw [getElectronConfiguration,
      sumElectrons_configLoop AUFBAU_ORDER Z (by omega) aufbau_caps_pos,
      aufbau_total_capacity]
    omega
  · intro c hc
    have hb := configLoop_electrons_bounds AUFBAU_ORDER Z aufbau_caps_pos c hc
    have hmem : (c.n, c.l, c.maxElectrons) ∈
        AUFBAU_ORDER.map (fun s => (s.n, s.l, s.maxElectrons)) :=
      (configLoop_erasure_init AUFBAU_ORDER Z).subset
        (List.mem_map_of_mem (fun c => (c.n, c.l, c.maxElectrons)) hc)
    exact ⟨hb.1, hb.2, by simpa using aufbau_caps_formula (c.n, c.l, c.maxElectrons) hmem⟩
  · have h := (configLoop_erasure_init AUFBAU_ORDER Z).map
      (fun t : ℕ × ℕ × ℤ => (t.1, t.2.1))
    simpa [List.map_map, Function.comp] using h

/-- Witness for C1 at carbon (Z = 6): the assigned electrons sum to 6. -/
theorem getElectronConfiguration_aufbau_witness :
    sumElectrons (getElectronConfiguration 6) = 6 :=
  (getElectronConfiguration_aufbau 6 (by decide) (by decide)).1

/-- Claim C10: `getElectronConfiguration` is total on the integers: a
non-positive Z yields the empty configuration, and a positive Z is capped
at 118, the total capacity of the 19 modeled Aufbau subshells — electrons
beyond 118 are silently dropped. -/
theorem getElectronConfiguration_total (Z : ℤ) :
    (Z ≤ 0 → getElectronConfiguration Z = []) ∧
    (0 < Z → sumElectrons (getElectronConfiguration Z) = min Z 118) ∧
    AUFBAU_ORDER.length = 19 ∧
    (AUFBAU_ORDER.map (fun s => s.maxElectrons)).sum = 118 := by
  refine ⟨?_, ?_, by decide, aufbau_total_capacity⟩
  · intro h
    exact configLoop_nonpos AUFBAU_ORDER Z h
  · intro h
    rw [getElectronConfiguration,
      sumElectrons_configLoop AUFBAU_ORDER Z h aufbau_caps_pos,
      aufbau_total_capacity]

/-- Witness for C10 at Z = -3 (empty) and Z = 200 (capped at 118). -/
theorem getElectronConfiguration_total_witness :
    getElectronConfiguration (-3) = [] ∧
    sumElectrons (getElectronConfiguration 200) = min 200 118 :=
  ⟨(getElectronConfiguration_total (-3)).1 (by decide),
   (getElectronConfiguration_total 200).2.1 (by decide)⟩

/-- Claim C8: for a subshell (n, l) holding between 1 and 2(2l+1)
electrons, the shared distribution loop assigns one or two electrons per
orbital, the per-orbital counts sum to the subshell total, and the
orbitals filled are an initial segment of mₗ = -l..+l in increasing
order (the assignment is the same pure function of (l, electrons) in both
rebuild paths). -/
theorem distributeElectrons_spec (l : ℕ) (e : ℤ)
    (h1 : 1 ≤ e) (h2 : e ≤ 2 * (2 * (l : ℤ) + 1)) :
    (∀ p ∈ distributeElectrons l e, 1 ≤ p.2 ∧ p.2 ≤ 2) ∧
    ((distributeElectrons l e).map Prod.snd).sum = e ∧
    (distributeElectrons l e).map Prod.fst <+: mlList l := by
  refine ⟨distLoop_counts _ _, ?_, distLoop_fst_init _ _⟩
  rw [distributeElectrons, distLoop_sum _ _ (by omega), mlList_length]
  push_cast
  omega

/-- Witness for C8 at l = 1, electrons = 3: the counts sum to 3. -/
theorem distributeElectrons_spec_witness :
    ((distributeElectrons 1 3).map Prod.snd).sum = 3 :=
  (distributeElectrons_spec 1 3 (by decide) (by decide)).2.1

/-- Counterexample to claim C6 as stated: at Z = 37 the atom rebuild does
not skip — the unguarded `ELEMENTS` lookup is dereferenced and the rebuild
fails with a TypeError. -/
theorem rebuildAtom_missing_element_error :
    rebuildAtomModel 37 = Except.error "TypeError: cannot read properties of undefined" := by
  rfl

/-- Claim C6 (amended): for every Z outside the catalog the lookup yields
`undefined`; the molecule rebuild skips such an atom (no-op), but the atom
rebuild dereferences the missing element and propagates a failure. -/
theorem missing_element_lookup_behavior (Z : ℤ) (h : Z < 1 ∨ 36 < Z) :
    findElement Z = none ∧ buildMoleculeAtom Z = none ∧
    rebuildAtomModel Z = Except.error "TypeError: cannot read properties of undefined" := by
  have hf := findElement_eq_none Z h
  exact ⟨hf, by simp [buildMoleculeAtom, hf], by simp [rebuildAtomModel, hf]⟩

/-- Witness for the amended C6 at Z = 37. -/
theorem missing_element_lookup_behavior_witness :
    findElement 37 = none ∧ buildMoleculeAtom 37 = none ∧
    rebuildAtomModel 37 = Except.error "TypeError: cannot read properties of undefined" :=
  missing_element_lookup_behavior 37 (Or.inr (by decide))

/-- Claim C5: the heatmap mapper clamps to [0,1] and applies the
breakpointed ramp; 0 maps exactly to the deep-purple end stop
(0.15, 0, 0.3), 1 maps exactly to white (1, 1, 1), and any input outside
[0,1] maps to the value at the nearer endpoint. -/
theorem densityToHeatmap_spec :
    densityToHeatmap 0 = (0.15, 0, 0.3) ∧
    densityToHeatmap 1 = (1, 1, 1) ∧
    ∀ t : ℝ, (t < 0 → densityToHeatmap t = densityToHeatmap 0) ∧
      (1 < t → densityToHeatmap t = densityToHeatmap 1) := by
  have h0 : clamp01 0 = 0 := by unfold clamp01; norm_num
  have h1 : clamp01 1 = 1 := by unfold clamp01; norm_num
  refine ⟨?_, ?_, ?_⟩
  · rw [densityToHeatmap, h0, heatRamp]
    norm_num
  · rw [densityToHeatmap, h1, heatRamp]
    norm_num
  · intro t
    constructor
    · intro ht
      rw [densityToHeatmap, densityToHeatmap, h0]
      congr 1
      unfold clamp01
      rw [min_eq_right (by linarith), max_eq_left (by linarith)]
    · intro ht
      rw [densityToHeatmap, densityToHeatmap, h1]
      congr 1
      unfold clamp01
      rw [min_eq_left (by linarith), max_eq_right (by linarith)]

/-- Witness for C5 at the out-of-range inputs -1 and 2. -/
theorem densityToHeatmap_spec_witness :
    densityToHeatmap (-1) = densityToHeatmap 0 ∧ densityToHeatmap 2 = densityToHeatmap 1 :=
  ⟨(densityToHeatmap_spec.2.2 (-1)).1 neg_one_lt_zero,
   (densityToHeatmap_spec.2.2 2).2 one_lt_two⟩

/-! ## Helper lemmas about dot products -/

/-- The cross product is perpendicular to its first factor. -/
lemma cross_dot_self (a b : Vec3) : (a.cross b).dot a = 0 := by
  simp only [Vec3.cross, Vec3.dot]
  ring

/-- Normalization preserves perpendicularity. -/
lemma normalize_dot_zero (v w : Vec3) (h : v.dot w = 0) : v.normalize.dot w = 0 := by
  simp only [Vec3.dot] at h
  simp only [Vec3.normalize, Vec3.dot]
  have hc : v.x / v.length * w.x + v.y / v.length * w.y + v.z / v.length * w.z =
      (v.x * w.x + v.y * w.y + v.z * w.z) / v.length := by ring
  rw [hc, h, zero_div]

/-- Scaling scales the dot product. -/
lemma smul_dot (c : ℝ) (v w : Vec3) : (Vec3.smul c v).dot w = c * v.dot w := by
  simp only [Vec3.smul, Vec3.dot]
  ring

/-- Negation negates the dot product. -/
lemma neg_dot (v w : Vec3) : v.neg.dot w = -(v.dot w) := by
  simp only [Vec3.neg, Vec3.dot]
  ring

/-- The zero vector is perpendicular to everything. -/
lemma zero_dot (w : Vec3) : Vec3.zero.dot w = 0 := by
  simp [Vec3.zero, Vec3.dot]

/-- Claim C7: for distinct endpoints, the bond composer emits exactly one
zero offset for order 1, a symmetric ± pair for order 2, a zero offset
plus a symmetric ± pair for order 3, and every offset has exact dot
product 0 with the bond direction B - A. -/
theorem bondOffsets_spec (A B : Vec3) (order : ℤ) (_hAB : A ≠ B) :
    (order = 1 → bondOffsets A B order = [Vec3.zero]) ∧
    (order = 2 → ∃ v : Vec3, bondOffsets A B order = [v, v.neg]) ∧
    (order = 3 → ∃ v : Vec3, bondOffsets A B order = [Vec3.zero, v, v.neg]) ∧
    ∀ o ∈ bondOffsets A B order, o.dot (Vec3.sub B A) = 0 := by
  have hperp : ∀ (c : ℝ) (p : Vec3),
      (Vec3.smul c ((Vec3.sub B A).cross p).normalize).dot (Vec3.sub B A) = 0 := by
    intro c p
    rw [smul_dot, normalize_dot_zero _ _ (cross_dot_self (Vec3.sub B A) p), mul_zero]
  have hperpneg : ∀ (c : ℝ) (p : Vec3),
      (Vec3.smul c ((Vec3.sub B A).cross p).normalize).neg.dot (Vec3.sub B A) = 0 := by
    intro c p
    rw [neg_dot, hperp, neg_zero]
  refine ⟨?_, ?_, ?_, ?_⟩
  · rintro rfl
    rw [bondOffsets]
    norm_num
  · rintro rfl
    rw [bondOffsets]
    norm_num
  · rintro rfl
    rw [bondOffsets]
    norm_num
  · intro o ho
    simp only [bondOffsets] at ho
    split_ifs at ho <;>
      simp only [List.mem_singleton, List.mem_cons, List.not_mem_nil, or_false] at ho
    all_goals
      rcases ho with rfl | rfl | rfl <;>
        first | exact zero_dot _ | exact hperp _ _ | exact hperpneg _ _

/-- Witness for C7 on the bond from the origin to (1,0,0), order 1. -/
theorem bondOffsets_spec_witness :
    bondOffsets ⟨0, 0, 0⟩ ⟨1, 0, 0⟩ 1 = [Vec3.zero] :=
  (bondOffsets_spec ⟨0, 0, 0⟩ ⟨1, 0, 0⟩ 1 (by simp [Vec3.mk.injEq])).1 rfl

/-- Bounding a sinusoid scaled by a nonnegative amplitude. -/
lemma mul_abs_le_amplitude (c s : ℝ) (hc : 0 ≤ c) (hs : |s| ≤ 1) : |s * c| ≤ c := by
  rw [abs_mul, abs_of_nonneg hc]
  nlinarith [abs_nonneg s]

/-- Claim C9: each frame rewrites every component as
`base * (1 + 0.04 sin(phase)) + jitter` with
`phase = elapsed * speed * 0.8 + n * 1.3 + l * 0.7`; the jitter amplitude
is bounded by `0.03 * speed` and depends only on the elapsed time and the
buffer index; the previous buffer contents do not matter, so repeated
frames at one elapsed time agree (no drift). -/
theorem animatePositions_spec (n l : ℕ) (speed elapsed : ℝ) (prev prev2 base : ℕ → ℝ)
    (j : ℕ) (hs : 0 ≤ speed) :
    animatePositions n l speed elapsed prev base j
      = base j * (1 + 0.04 * Real.sin (animatePhase n l speed elapsed))
        + animateJitter speed elapsed j ∧
    |animateJitter speed elapsed j| ≤ 0.03 * speed ∧
    animatePositions n l speed elapsed prev base j
      = animatePositions n l speed elapsed prev2 base j := by
  refine ⟨?_, ?_, rfl⟩
  · simp only [animatePositions]
    ring
  · simp only [animateJitter]
    split_ifs
    · exact mul_abs_le_amplitude _ _ (by linarith) (Real.abs_sin_le_one _)
    · exact mul_abs_le_amplitude _ _ (by linarith) (Real.abs_cos_le_one _)
    · exact mul_abs_le_amplitude _ _ (by linarith) (Real.abs_sin_le_one _)

/-- Witness for C9 at speed 1, elapsed time 0, index 0, two distinct
previous buffers. -/
theorem animatePositions_spec_witness :
    |animateJitter 1 0 0| ≤ 0.03 * 1 :=
  (animatePositions_spec 1 0 1 0 (fun _ => 0) (fun _ => 2) (fun _ => 1) 0 zero_le_one).2.1

/-- Claim C2: the radial probability equals
`rho^2 * (rho^l * L(rho))^2 * exp(-rho)` with `L` the generalized Laguerre
polynomial of degree n-l-1 and order 2l+1 defined by the standard
three-term recurrence (whose base cases and recurrence are restated and
proved alongside). -/
theorem radialProbability_spec (n l : ℕ) (ρ k x : ℝ)
    (_hn : 1 ≤ n) (_hl : l ≤ n - 1) (_hρ : 0 ≤ ρ) :
    radialProbability n l ρ
      = ρ ^ 2 * (ρ ^ l * laguerreL (n - l - 1) (2 * (l : ℝ) + 1) ρ) ^ 2 * Real.exp (-ρ) ∧
    laguerreL 0 k x = 1 ∧
    laguerreL 1 k x = 1 + k - x ∧
    ∀ p : ℕ, ((p : ℝ) + 2) * laguerreL (p + 2) k x
      = (2 * ((p : ℝ) + 2) - 1 + k - x) * laguerreL (p + 1) k x
        - (((p : ℝ) + 2) - 1 + k) * laguerreL p k x := by
  refine ⟨?_, rfl, rfl, ?_⟩
  · have hE : Real.exp (-ρ / 2) * Real.exp (-ρ / 2) = Real.exp (-ρ) := by
      rw [← Real.exp_add]
      norm_num
    have hdef : radialProbability n l ρ =
        ρ * ρ * (ρ ^ l * laguerreL (n - l - 1) (2 * (l : ℝ) + 1) ρ * Real.exp (-ρ / 2)) *
          (ρ ^ l * laguerreL (n - l - 1) (2 * (l : ℝ) + 1) ρ * Real.exp (-ρ / 2)) := rfl
    have key : ∀ a b c d : ℝ, c * c = d → a * a * (b * c) * (b * c) = a ^ 2 * b ^ 2 * d := by
      intro a b c d h
      rw [← h]
      ring
    rw [hdef, key ρ (ρ ^ l * laguerreL (n - l - 1) (2 * (l : ℝ) + 1) ρ)
      (Real.exp (-ρ / 2)) (Real.exp (-ρ)) hE]
  · intro p
    have hp : ((p : ℝ) + 2) ≠ 0 := by positivity
    have hstep : laguerreL (p + 2) k x =
        ((2 * ((p : ℝ) + 2) - 1 + k - x) * laguerreL (p + 1) k x -
          (((p : ℝ) + 2) - 1 + k) * laguerreL p k x) / ((p : ℝ) + 2) := rfl
    rw [hstep, mul_div_cancel₀ _ hp]

/-- Witness for C2 at n = 2, l = 0, rho = 1. -/
theorem radialProbability_spec_witness :
    radialProbability 2 0 1
      = (1 : ℝ) ^ 2 * ((1 : ℝ) ^ (0 : ℕ) * laguerreL (2 - 0 - 1) (2 * ((0 : ℕ) : ℝ) + 1) 1) ^ 2 *
        Real.exp (-1) :=
  (radialProbability_spec 2 0 1 0 0 (by decide) (by decide) zero_le_one).1

/-- Claim C4: for every orbital type l = 0..3, every mₗ in [-l, l], every
n > l, every requested count and every outcome of the random draws, the
master sampler returns exactly `count` samples — rejection exhaustion
falls back to a fixed peak-density direction instead of discarding the
sample. -/
theorem sampleOrbitalPositions_count (n l : ℕ) (ml : ℤ) (count : ℕ) (rand : ℕ → ℝ) (k : ℕ)
    (_hrand : ∀ i, 0 ≤ rand i ∧ rand i < 1) (_hl : l ≤ 3) (_hml : ml.natAbs ≤ l)
    (_hn : l < n) :
    (sampleOrbitalPositions n l ml count rand k).1.length = count := by
  induction count generalizing k with
  | zero => rfl
  | succ c ih => simp [sampleOrbitalPositions, ih]

/-- Witness for C4: a p orbital of n = 2 with 3 requested samples on the
all-zero random stream yields exactly 3 samples. -/
theorem sampleOrbitalPositions_count_witness :
    (sampleOrbitalPositions 2 1 0 3 (fun _ => 0) 0).1.length = 3 :=
  sampleOrbitalPositions_count 2 1 0 3 (fun _ => 0) 0
    (fun _ => ⟨le_refl 0, zero_lt_one⟩) (by decide) (by decide) (by decide)

end Trap


